import Mathlib

/-!
Verification of the streaming event-protocol parser / renderer / telemetry
core of the agent-os repository, as a shallow embedding in Lean 4.

Sources embedded:
  * `src/lib/llm/claude.ts`                  — `claudeRuntime.runPrompt` line
    handler, `parseStreamingOutput`, close/error resolution.
  * `src/lib/llm/formatting.ts` (part_002)   — `formatToolUse`,
    `formatToolResult` (the same functions are duplicated verbatim inside
    `spec-to-implementation.mjs`).
  * cursor runtime (part_004)                — `cursorRuntime.runPrompt`
    line handler and close/error resolution.
  * `src/lib/llm/opencode.ts`                — close resolution.
  * `src/profiles/.../spec-to-implementation.mjs`
                                             — `runCommandWithStreaming`
    line handler (block tracker + telemetry fold) and the per-invocation
    step counter of `runCliWithTracking`.

Modelling conventions:
  * A parsed JSON document is a `Json` value.  `JSON.parse(line)` is
    modelled by an `Option Json` argument (`none` = the parse threw) or,
    for nested parses of accumulated fragments, by an explicit
    `jparse : String → Option Json` parameter.
  * JavaScript `undefined` is `Option.none`; absent object fields read as
    `none` exactly as property access yields `undefined`.
  * `chalk` color wrappers add ANSI escapes around their argument and are
    modelled as the identity on the text; where a whole console write is
    colored, the color is recorded as the `Style` of the emitted fragment.
  * Where the JavaScript source calls string methods on dynamically typed
    event fields, well-formed protocol events carry strings there; the
    embedding coerces other values with the JS string conversion `jsDisp`
    instead of modelling the `TypeError`-into-`catch` path for ill-typed
    events.  No claim exercises those corners.
  * JS numbers are modelled as `ℚ` (all figures involved are exact in
    doubles as well: token counts are small integers and the only cost
    arithmetic claimed, 0.02 + 0.02 = 0.04, is exact in binary doubles
    because doubling a double is exact).
-/

namespace AgentOS

mutual

/-- Model of a parsed JSON document (the result of a successful
`JSON.parse`). Object fields are kept in insertion order, as JavaScript
does for string keys.  The list spines are their own inductives so that
equality stays derivably decidable. -/
inductive Json where
  | null : Json
  | bool (b : Bool) : Json
  | num (q : ℚ) : Json
  | str (s : String) : Json
  | arr (xs : JsonList) : Json
  | obj (kvs : JsonKVs) : Json
deriving DecidableEq

/-- Spine of a JSON array. -/
inductive JsonList where
  | nil : JsonList
  | cons (hd : Json) (tl : JsonList) : JsonList
deriving DecidableEq

/-- Spine of a JSON object: ordered key/value pairs. -/
inductive JsonKVs where
  | nil : JsonKVs
  | cons (k : String) (v : Json) (tl : JsonKVs) : JsonKVs
deriving DecidableEq

end

/-- View of an array spine as a `List`. -/
def JsonList.toList : JsonList → List Json
  | .nil => []
  | .cons x tl => x :: tl.toList

/-- Array spine from a `List`. -/
def JsonList.ofList : List Json → JsonList
  | [] => .nil
  | x :: tl => .cons x (JsonList.ofList tl)

/-- View of an object spine as a `List` of pairs. -/
def JsonKVs.toList : JsonKVs → List (String × Json)
  | .nil => []
  | .cons k v tl => (k, v) :: tl.toList

/-- Object spine from a `List` of pairs. -/
def JsonKVs.ofList : List (String × Json) → JsonKVs
  | [] => .nil
  | (k, v) :: tl => .cons k v (JsonKVs.ofList tl)

/-- Convenience constructor for array literals. -/
def jarr (xs : List Json) : Json := .arr (JsonList.ofList xs)

/-- Convenience constructor for object literals. -/
def jobj (kvs : List (String × Json)) : Json := .obj (JsonKVs.ofList kvs)

/-- Property access `j[k]` on an object; `none` models `undefined`. -/
def Json.getField : Json → String → Option Json
  | .obj kvs, k => (kvs.toList.find? (fun kv => kv.1 = k)).map (fun kv => kv.2)
  | _, _ => none

/-- JavaScript truthiness of a JSON value.  `{}` and `[]` are truthy. -/
def Json.truthy : Json → Bool
  | .null => false
  | .bool b => b
  | .num q => q ≠ 0
  | .str s => s ≠ ""
  | .arr _ => true
  | .obj _ => true

/-- Truthiness of a possibly-`undefined` value. -/
def otruthy (o : Option Json) : Bool :=
  match o with
  | none => false
  | some j => j.truthy

/-- Numeric view of a JSON value; `none` for non-numbers. -/
def Json.asNum : Json → Option ℚ
  | .num q => some q
  | _ => none

/-- String view of a JSON value; `none` for non-strings. -/
def Json.asStr : Json → Option String
  | .str s => some s
  | _ => none

/-- JS number rendering.  Integral values print as integers, exactly as
JavaScript prints them; non-integral rationals (never produced by the
claims) are printed as `num/den`, abstracting JS decimal formatting. -/
def jsNumRepr (q : ℚ) : String :=
  if q.den = 1 then toString q.num else toString q.num ++ "/" ++ toString q.den

/-- One-level display used for array elements below (JS `Array.toString`
renders `null`/`undefined` elements as empty and joins with commas;
arrays nest at most one level in every value the embedding displays). -/
def jsDispShallow : Json → String
  | .null => ""
  | .bool b => if b then "true" else "false"
  | .num q => jsNumRepr q
  | .str s => s
  | .arr _ => ""
  | .obj _ => "[object Object]"

/-- JS string conversion of a JSON value (template-literal coercion). -/
def jsDisp : Json → String
  | .null => "null"
  | .bool b => if b then "true" else "false"
  | .num q => jsNumRepr q
  | .str s => s
  | .arr xs => String.intercalate "," (xs.toList.map jsDispShallow)
  | .obj _ => "[object Object]"

/-- String conversion of a possibly-`undefined` value: JS renders
`undefined` as the text `undefined` in template literals. -/
def odisp (o : Option Json) : String :=
  match o with
  | none => "undefined"
  | some j => jsDisp j

/-- Reads a numeric field defaulting to `0`, the `e.k || 0` idiom of the
source for token counts (absent, non-numeric and `0` all give `0`). -/
def numField (j : Json) (k : String) : ℚ :=
  ((j.getField k).bind Json.asNum).getD 0

/-- Hex digit character, lowercase, for `\u00xx` escapes. -/
def hexDigit (n : ℕ) : Char :=
  if n < 10 then Char.ofNat (48 + n) else Char.ofNat (87 + n)

/-- Four lowercase hex digits. -/
def hex4 (n : ℕ) : String :=
  String.mk [hexDigit (n / 4096 % 16), hexDigit (n / 256 % 16),
             hexDigit (n / 16 % 16), hexDigit (n % 16)]

/-- JSON string escaping of one character, as `JSON.stringify` performs. -/
def escChar (c : Char) : String :=
  if c = '"' then "\\\""
  else if c = '\\' then "\\\\"
  else if c = '\n' then "\\n"
  else if c = '\r' then "\\r"
  else if c = '\t' then "\\t"
  else if c.toNat = 8 then "\\b"
  else if c.toNat = 12 then "\\f"
  else if c.toNat < 32 then "\\u" ++ hex4 c.toNat
  else String.singleton c

/-- A JSON-quoted, escaped string literal. -/
def jsonQuote (s : String) : String :=
  "\"" ++ String.join (s.toList.map escChar) ++ "\""

/-- Indentation of `2*n` spaces used by `JSON.stringify(·, null, 2)`. -/
def pad2 (n : ℕ) : String := String.mk (List.replicate (2 * n) ' ')

mutual

/-- `JSON.stringify(v, null, 2)` at nesting depth `ind`. -/
def Json.stringify2 : ℕ → Json → String
  | _, .null => "null"
  | _, .bool b => if b then "true" else "false"
  | _, .num q => jsNumRepr q
  | _, .str s => jsonQuote s
  | _, .arr .nil => "[]"
  | ind, .arr xs =>
      "[\n" ++ JsonList.items2 (ind + 1) xs ++ "\n" ++ pad2 ind ++ "]"
  | _, .obj .nil => "\x7b\x7d"
  | ind, .obj kvs =>
      "\x7b\n" ++ JsonKVs.items2 (ind + 1) kvs ++ "\n" ++ pad2 ind ++ "\x7d"

/-- Indented, `",\n"`-joined array items. -/
def JsonList.items2 : ℕ → JsonList → String
  | _, .nil => ""
  | ind, .cons x .nil => pad2 ind ++ Json.stringify2 ind x
  | ind, .cons x tl =>
      pad2 ind ++ Json.stringify2 ind x ++ ",\n" ++ JsonList.items2 ind tl

/-- Indented, `",\n"`-joined object members. -/
def JsonKVs.items2 : ℕ → JsonKVs → String
  | _, .nil => ""
  | ind, .cons k v .nil => pad2 ind ++ jsonQuote k ++ ": " ++ Json.stringify2 ind v
  | ind, .cons k v tl =>
      pad2 ind ++ jsonQuote k ++ ": " ++ Json.stringify2 ind v ++ ",\n"
        ++ JsonKVs.items2 ind tl

end

/-- Visual category of one terminal write; `chalk` colors are recorded
here rather than as ANSI escapes in the text. -/
inductive Style where
  | plain : Style
  | dim : Style
  | cyan : Style
  | magenta : Style
  | red : Style
  | yellow : Style
  | green : Style
  | gray : Style
deriving DecidableEq

/-- One terminal write: `console.log` contributes its text plus `"\n"`,
`process.stdout.write` contributes the text alone. -/
structure Frag where
  style : Style
  text : String
deriving DecidableEq

/-- All-digit check and value of a nonempty digit run. -/
def decDigits (cs : List Char) : Option ℕ :=
  if cs ≠ [] ∧ cs.all Char.isDigit then
    some (cs.foldl (fun a c => a * 10 + (c.toNat - 48)) 0)
  else none

/-- Decimal fraction parser for JS `ToNumber` on strings: optional sign,
digits, optional fractional part (`"5."`, `".5"` allowed).  Hex,
exponent and `Infinity` forms never reach the call sites and give
`none` (NaN). -/
def parseDecCore (cs : List Char) : Option ℚ :=
  let (sgn, rest) :=
    match cs with
    | '-' :: r => ((-1 : ℚ), r)
    | '+' :: r => ((1 : ℚ), r)
    | r => ((1 : ℚ), r)
  match rest.splitOn '.' with
  | [w] => (decDigits w).map (fun n => sgn * n)
  | [w, f] =>
      if w = [] ∧ f = [] then none
      else
        let wn := if w = [] then some 0 else decDigits w
        let fn := if f = [] then some ((0 : ℕ), (0 : ℕ))
                  else (decDigits f).map (fun n => (n, f.length))
        match wn, fn with
        | some a, some bf => some (sgn * ((a : ℚ) + (bf.1 : ℚ) / 10 ^ bf.2))
        | _, _ => none
  | _ => none

/-- Leading/trailing-whitespace strip on character lists (the effect of
JS `String.prototype.trim`). -/
def trimList (cs : List Char) : List Char :=
  ((cs.dropWhile Char.isWhitespace).reverse.dropWhile Char.isWhitespace).reverse

/-- JS `ToNumber` of a string: trimmed, empty is `0`, otherwise a decimal
literal; `none` models `NaN`. -/
def strToNumber (s : String) : Option ℚ :=
  let t := trimList s.toList
  if t = [] then some 0 else parseDecCore t

/-- Split on the newline character: the effect of `str.split("\n")` on
the one-character separator the renderer uses. -/
def splitNl (cs : List Char) : List (List Char) :=
  match cs with
  | [] => [[]]
  | x :: xs =>
      let r := splitNl xs
      if x = '\n' then [] :: r
      else
        match r with
        | h :: t => (x :: h) :: t
        | [] => [[x]]

/-- `str.split("\n")` as a list of line strings. -/
def splitLines (s : String) : List String :=
  (splitNl s.toList).map (fun l => String.mk l)

/-- Whether `s` ends with `suffix` (JS `endsWith` / the `/ToolCall$/`
regex test). -/
def strEndsWith (s suf : String) : Bool :=
  List.isSuffixOf suf.toList s.toList

/-- Canonical array-index view of a property key: `some n` iff the key is
the decimal spelling of `n` (JS array indexing `arr["07"]` misses). -/
def natOfCanon (k : String) : Option ℕ :=
  match decDigits k.toList with
  | some n => if toString n = k then some n else none
  | none => none

/-- JS `ToNumber` of a possibly-`undefined` value (`none` result models
`NaN`; `undefined` converts to `NaN`).  Arrays and objects coerce through
`toString` in JS; no call site passes them, modelled as `NaN`. -/
def jsToNumber (v : Option Json) : Option ℚ :=
  match v with
  | none => none
  | some .null => some 0
  | some (.bool b) => some (if b then 1 else 0)
  | some (.num q) => some q
  | some (.str s) => strToNumber s
  | some (.arr _) => none
  | some (.obj _) => none

/-- JS property read `j[k]` covering object fields plus canonical array
and string indexing (used by the `Object.keys` fallback path). -/
def jsIndexFull (j : Json) (k : String) : Option Json :=
  match j with
  | .obj _ => j.getField k
  | .arr xs =>
      match natOfCanon k with
      | some n => xs.toList.get? n
      | none => none
  | .str s =>
      match natOfCanon k with
      | some n => (s.toList.get? n).map (fun c => Json.str (String.singleton c))
      | none => none
  | _ => none

/-- Property access `input[k]` where `input` may be `undefined`: access on
`undefined` or `null` throws a `TypeError`, modelled as `Except.error`. -/
def pget (input : Option Json) (k : String) : Except Unit (Option Json) :=
  match input with
  | none => .error ()
  | some .null => .error ()
  | some j => .ok (jsIndexFull j k)

/-- `Object.keys(input)`: throws on `null`/`undefined`, field names for
objects, index strings for arrays and strings, empty otherwise. -/
def pkeys (input : Option Json) : Except Unit (List String) :=
  match input with
  | none => .error ()
  | some .null => .error ()
  | some (.obj kvs) => .ok (kvs.toList.map (fun kv => kv.1))
  | some (.arr xs) => .ok ((List.range xs.toList.length).map toString)
  | some (.str s) => .ok ((List.range s.length).map toString)
  | some _ => .ok []

/-- Session telemetry accumulator, mirroring the `tokenUsage` global of
`spec-to-implementation.mjs` (lines 32–39). -/
structure Telemetry where
  totalInputTokens : ℚ
  totalOutputTokens : ℚ
  totalCacheReadTokens : ℚ
  totalCacheCreationTokens : ℚ
  totalCostUsd : ℚ
  totalDurationMs : ℚ
  stepCount : ℕ
deriving DecidableEq

/-- The zeroed accumulator, exactly the initializer at mjs lines 32–39. -/
def telemetryInit : Telemetry :=
  { totalInputTokens := 0
    totalOutputTokens := 0
    totalCacheReadTokens := 0
    totalCacheCreationTokens := 0
    totalCostUsd := 0
    totalDurationMs := 0
    stepCount := 0 }

/-- The `result`-event fold of `runCommandWithStreaming`
(`spec-to-implementation.mjs` lines 613–625): `if (event.usage)` add the
four token figures (each `|| 0`), and `if (event.total_cost_usd)` add the
cost. -/
def foldResultEvent (u : Telemetry) (e : Json) : Telemetry :=
  let u1 :=
    match e.getField "usage" with
    | some us =>
        if us.truthy then
          { u with
            totalInputTokens := u.totalInputTokens + numField us "input_tokens"
            totalOutputTokens := u.totalOutputTokens + numField us "output_tokens"
            totalCacheReadTokens :=
              u.totalCacheReadTokens + numField us "cache_read_input_tokens"
            totalCacheCreationTokens :=
              u.totalCacheCreationTokens + numField us "cache_creation_input_tokens" }
        else u
    | none => u
  match e.getField "total_cost_usd" with
  | some c =>
      if c.truthy then
        { u1 with totalCostUsd := u1.totalCostUsd + (c.asNum.getD 0) }
      else u1
  | none => u1

/-- The per-invocation step increment, `tokenUsage.stepCount++` at the top
of `runCliWithTracking` (mjs line 670). -/
def bumpStep (u : Telemetry) : Telemetry :=
  { u with stepCount := u.stepCount + 1 }

/-- One tracked step of the telemetry aggregator: `runCliWithTracking`
increments the step counter (line 670) and the streaming handler folds
the invocation's terminal `result` event into the totals (lines
613–625).  One invocation yields one `result` event, so the aggregator's
fold over a step is the composition of the two. -/
def runStepFold (u : Telemetry) (e : Json) : Telemetry :=
  foldResultEvent (bumpStep u) e

/-- Dispatch body of `formatToolUse` (formatting.ts lines 29–72, identical
in the mjs copy, lines 211–256): the `switch (toolName)` over a resolved
`input` value, with thrown `TypeError`s surfaced as `Except.error` so the
enclosing `catch` can return the bare tool name. -/
def formatToolUseCore (toolName : String) (input : Option Json) : Except Unit String :=
  if toolName = "Read" ∨ toolName = "Write" ∨ toolName = "Edit" ∨ toolName = "StrReplace" then do
    let verb := if toolName = "Read" then "Reading "
      else if toolName = "Write" then "Writing " else "Editing "
    let a ← pget input "file_path"
    if otruthy a then pure (verb ++ odisp a)
    else do
      let b ← pget input "path"
      pure (verb ++ (if otruthy b then odisp b else "file"))
  else if toolName = "Grep" ∨ toolName = "Search" then do
    let p ← pget input "pattern"
    let q ← pget input "query"
    let pv : Option Json :=
      if otruthy p then p else if otruthy q then q else some (.str "")
    match pv with
    | some (.str s) => do
        let sp ← pget input "path"
        let sd ← pget input "directory"
        let spd := if otruthy sp then odisp sp
          else if otruthy sd then odisp sd else "."
        pure ("Searching \"" ++ s.take 40 ++ (if 40 < s.length then "..." else "")
          ++ "\" in " ++ spd)
    | _ => .error ()
  else if toolName = "Glob" then do
    let p ← pget input "pattern"
    let g ← pget input "glob_pattern"
    pure ("Finding files: "
      ++ (if otruthy p then odisp p else if otruthy g then odisp g else "*"))
  else if toolName = "LS" ∨ toolName = "ListDir" then do
    let p ← pget input "path"
    let d ← pget input "directory"
    pure ("Listing " ++ (if otruthy p then odisp p else if otruthy d then odisp d else "."))
  else if toolName = "Bash" ∨ toolName = "Shell" then do
    let c ← pget input "command"
    match (if otruthy c then c else some (.str "")) with
    | some (.str s) =>
        pure ("Running: " ++ s.take 50 ++ (if 50 < s.length then "..." else ""))
    | _ => .error ()
  else if toolName = "WebSearch" then do
    let q ← pget input "query"
    let t ← pget input "search_term"
    pure ("Searching web: "
      ++ (if otruthy q then odisp q else if otruthy t then odisp t else ""))
  else if toolName = "TodoRead" then pure "Reading todo list"
  else if toolName = "TodoWrite" then pure "Updating todo list"
  else if toolName = "Task" then do
    let d ← pget input "description"
    match (if otruthy d then d else some (.str "")) with
    | some (.str s) => pure ("Task: " ++ s.take 40 ++ "...")
    | _ => .error ()
  else do
    let ks ← pkeys input
    match ks.head? with
    | some k =>
        if k ≠ "" then
          match input with
          | some j =>
              match jsIndexFull j k with
              | some (.str v) =>
                  pure (toolName ++ ": " ++ v.take 40
                    ++ (if 40 < v.length then "..." else ""))
              | _ => pure toolName
          | none => pure toolName
        else pure toolName
    | none => pure toolName

/-- `formatToolUse(toolName, toolInput)` of formatting.ts lines 21–76 (and
its mjs copy): string inputs are `JSON.parse`d (`jparse` is the parse
oracle), any throw is caught and yields the bare tool name. -/
def formatToolUse (jparse : String → Option Json) (toolName : String)
    (toolInput : Option Json) : String :=
  let resolved : Except Unit (Option Json) :=
    match toolInput with
    | some (.str s) =>
        match jparse s with
        | some j => .ok (some j)
        | none => .error ()
    | some j => .ok (some j)
    | none => .ok none
  match resolved with
  | .error _ => toolName
  | .ok input =>
      match formatToolUseCore toolName input with
      | .ok s => s
      | .error _ => toolName

/-- `lines.slice(0, maxLines)` with the JS `ToIntegerOrInfinity` end-index
semantics (`NaN` → `0`, negative counts from the end). -/
def jsSliceTo (lines : List String) (m : Option ℚ) : List String :=
  match m with
  | none => []
  | some q =>
      let e : ℤ := if q < 0 then -((-q).floor) else q.floor
      if e < 0 then lines.take (lines.length - (-e).toNat |>.max 0)
      else lines.take (e.toNat.min lines.length)

/-- `formatToolResult(content, maxLines = 5)` of formatting.ts lines
86–106 (and its mjs copy, lines 483–499): falsy content is empty,
non-string content is `JSON.stringify(content, null, 2)`, output is
line-prefixed with `    │ ` and truncated past `maxLines` with a
`... (N more lines)` marker.  `maxLines` is kept as a dynamic JS value
because the cursor runtime (part_004 line 156) passes the tool *name*
in that position; `none` from `jsToNumber` models the resulting `NaN`
(comparison false, `slice(0, NaN)` empty, marker text `NaN`). -/
def formatToolResult (content : Option Json) (maxLines : Option Json) : String :=
  if ¬ otruthy content then ""
  else
    let str :=
      match content with
      | some (.str s) => s
      | some j => Json.stringify2 0 j
      | none => ""
    let lines := splitLines str
    let m := jsToNumber maxLines
    match m with
    | some q =>
        if (lines.length : ℚ) ≤ q then
          String.intercalate "\n" (lines.map (fun l => "    │ " ++ l))
        else
          String.intercalate "\n" ((jsSliceTo lines m).map (fun l => "    │ " ++ l))
            ++ "\n    │ ... (" ++ jsNumRepr ((lines.length : ℚ) - q) ++ " more lines)"
    | none =>
        String.intercalate "\n" ((jsSliceTo lines m).map (fun l => "    │ " ++ l))
          ++ "\n    │ ... (NaN more lines)"

/-- Left-pad with zeros to width `w`. -/
def padZeros (w : ℕ) (n : ℕ) : String :=
  let s := toString n
  String.mk (List.replicate (w - s.length) '0') ++ s

/-- `x.toFixed(digits)` for a nonnegative rational. -/
def toFixedNN (digits : ℕ) (q : ℚ) : String :=
  let n : ℕ := (q * 10 ^ digits + 1 / 2).floor.toNat
  if digits = 0 then toString (n : ℤ)
  else toString ((n / 10 ^ digits : ℕ) : ℤ) ++ "." ++ padZeros digits (n % 10 ^ digits)

/-- JS `Number.prototype.toFixed`, modelled as round half away from zero
on ℚ (the binary-double tie behaviour differs only on ties no call site
produces). -/
def toFixed (digits : ℕ) (q : ℚ) : String :=
  if q < 0 then "-" ++ toFixedNN digits (-q) else toFixedNN digits q

/-- `formatCost` of the mjs, line 75: `` `$${cost.toFixed(4)}` ``. -/
def formatCost (c : ℚ) : String := "$" ++ toFixed 4 c

/-- Comma grouping of a digit string, three from the right. -/
def insertCommas : List Char → List Char
  | a :: b :: c :: d :: rest => a :: b :: c :: ',' :: insertCommas (d :: rest)
  | l => l

/-- `formatNumber` of the mjs, line 71: `num.toLocaleString("en-US")`.
Only integer token counts reach it; the fractional rendering of the
locale (≤ 3 digits) is abstracted to the truncated integer part. -/
def formatNumber (q : ℚ) : String :=
  (if q < 0 then "-" else "")
    ++ String.mk ((insertCommas ((toString (|q|).floor.toNat).toList.reverse)).reverse)

/-- Kind tag of a tracked content block (`blocks[idx].type` in the mjs). -/
inductive BlockKind where
  | text : BlockKind
  | toolUse : BlockKind
  | toolResult : BlockKind
deriving DecidableEq

/-- One tracked block of `runCommandWithStreaming`'s `blocks` map.  The JS
objects carry `type`/`name`/`input` for tool_use and `type`/`content` for
text and tool_result; the delta handler freely adds the missing fields
(`blocks[idx].content = (blocks[idx].content || "") + text`), so the
embedding keeps all fields with `""` defaults. -/
structure Block where
  kind : BlockKind
  name : String
  content : String
  input : String
deriving DecidableEq

/-- The block tracker: a finite map keyed by the raw `event.index` value
(`none` models the `undefined` key, under which JS would also store). -/
abbrev BlocksMap : Type := Option Json → Option Block

/-- `blocks[idx] = b`. -/
def bset (m : BlocksMap) (k : Option Json) (b : Block) : BlocksMap :=
  fun k' => if k' = k then some b else m k'

/-- `delete blocks[idx]`. -/
def berase (m : BlocksMap) (k : Option Json) : BlocksMap :=
  fun k' => if k' = k then none else m k'

/-- State threaded through `runCommandWithStreaming`'s `line` handler
(mjs lines 503–512): captured `output`, everything written to the
terminal, the open-block tracker, the global `tokenUsage` accumulator,
`lastToolName`, and the raw `jsonLines` buffer of parsed events. -/
structure MjsState where
  output : String
  terminal : List Frag
  blocks : BlocksMap
  usage : Telemetry
  lastToolName : String
  jsonLines : List Json

/-- The state at the top of `runCommandWithStreaming` (fresh maps and
buffers; `usage` is the process-global accumulator, zeroed here for a
fresh orchestration run). -/
def mjsInit : MjsState :=
  { output := ""
    terminal := []
    blocks := fun _ => none
    usage := telemetryInit
    lastToolName := ""
    jsonLines := [] }

/-- One content block of a full `assistant` message (mjs lines 531–547):
text blocks are printed and captured, tool_use blocks are announced,
truthy tool_result content is previewed. -/
def mjsAssistantBlock (jparse : String → Option Json) (st : MjsState) (b : Json) : MjsState :=
  if b.getField "type" = some (.str "text") then
    { st with
      terminal := st.terminal ++ [⟨.plain, odisp (b.getField "text") ++ "\n"⟩]
      output := st.output ++ odisp (b.getField "text") ++ "\n" }
  else if b.getField "type" = some (.str "tool_use") then
    let disp := formatToolUse jparse (odisp (b.getField "name")) (b.getField "input")
    { st with
      terminal := st.terminal ++ [⟨.cyan, "  ➤ " ++ disp ++ "\n"⟩]
      lastToolName := odisp (b.getField "name") }
  else if b.getField "type" = some (.str "tool_result") then
    if otruthy (b.getField "content") then
      { st with
        terminal := st.terminal
          ++ [⟨.plain, formatToolResult (b.getField "content") (some (.num 5)) ++ "\n"⟩] }
    else st
  else st

/-- One content block of a `user` message (mjs lines 550–559): only
tool_result blocks render, and only when the preview is nonempty. -/
def mjsUserBlock (st : MjsState) (b : Json) : MjsState :=
  if b.getField "type" = some (.str "tool_result") then
    let preview := formatToolResult (b.getField "content") (some (.num 5))
    if preview ≠ "" then
      { st with terminal := st.terminal ++ [⟨.plain, preview ++ "\n"⟩] }
    else st
  else st

/-- Iteration over `event.message?.content` guarded by its truthiness.
A truthy non-array would make the JS `for..of` throw into the line
handler's catch; no claim exercises that corner and it is modelled as a
no-op. -/
def mjsMessageFold (step : MjsState → Json → MjsState) (st : MjsState) (e : Json) : MjsState :=
  let content := (e.getField "message").bind (fun m => m.getField "content")
  if otruthy content then
    match content with
    | some (.arr xs) => xs.toList.foldl step st
    | _ => st
  else st

/-- The `line` handler of `runCommandWithStreaming`
(`spec-to-implementation.mjs` lines 520–643).  `parsed` is the outcome of
`JSON.parse(line)` (`none` = the parse threw and control reaches the
`catch`); `jparse` is the parse oracle for the nested
`JSON.parse(block.input)` inside `formatToolUse`. -/
def mjsHandleLine (jparse : String → Option Json) (st : MjsState) (line : String)
    (parsed : Option Json) : MjsState :=
  match parsed with
  | none =>
      { st with
        terminal := st.terminal ++ [⟨.plain, line ++ "\n"⟩]
        output := st.output ++ line ++ "\n" }
  | some e =>
      let st : MjsState := { st with jsonLines := st.jsonLines ++ [e] }
      let ty := e.getField "type"
      if ty = some (.str "assistant") then
        mjsMessageFold (mjsAssistantBlock jparse) st e
      else if ty = some (.str "user") then
        mjsMessageFold mjsUserBlock st e
      else if ty = some (.str "content_block_start") then
        let idx := e.getField "index"
        let cb := e.getField "content_block"
        let cbt := cb.bind (fun c => c.getField "type")
        if cbt = some (.str "tool_use") then
          let nm := cb.bind (fun c => c.getField "name")
          { st with
            blocks := bset st.blocks idx
              ⟨.toolUse, if otruthy nm then odisp nm else "tool", "", ""⟩ }
        else if cbt = some (.str "text") then
          { st with blocks := bset st.blocks idx ⟨.text, "", "", ""⟩ }
        else if cbt = some (.str "tool_result") then
          { st with blocks := bset st.blocks idx ⟨.toolResult, "", "", ""⟩ }
        else st
      else if ty = some (.str "content_block_delta") then
        let idx := e.getField "index"
        let delta := e.getField "delta"
        let dty := delta.bind (fun d => d.getField "type")
        let dtext := delta.bind (fun d => d.getField "text")
        let pj := delta.bind (fun d => d.getField "partial_json")
        if dty = some (.str "text_delta") ∧ otruthy dtext = true then
          let t := odisp dtext
          let st : MjsState := { st with
            terminal := st.terminal ++ [⟨.plain, t⟩]
            output := st.output ++ t }
          match st.blocks idx with
          | some b => { st with blocks := bset st.blocks idx { b with content := b.content ++ t } }
          | none => st
        else if dty = some (.str "input_json_delta") ∧ otruthy pj = true then
          match st.blocks idx with
          | some b => { st with blocks := bset st.blocks idx { b with input := b.input ++ odisp pj } }
          | none => st
        else st
      else if ty = some (.str "content_block_stop") then
        let idx := e.getField "index"
        let st1 : MjsState :=
          match st.blocks idx with
          | some b =>
              if b.kind = .toolUse then
                { st with
                  terminal := st.terminal
                    ++ [⟨.cyan, "  ➤ "
                        ++ formatToolUse jparse b.name (some (.str b.input)) ++ "\n"⟩]
                  lastToolName := b.name }
              else if b.kind = .toolResult then
                let preview := formatToolResult (some (.str b.content)) (some (.num 5))
                if preview ≠ "" then
                  { st with terminal := st.terminal ++ [⟨.plain, preview ++ "\n"⟩] }
                else st
              else st
          | none => st
        { st1 with blocks := berase st1.blocks idx }
      else if ty = some (.str "result") then
        let st : MjsState := { st with usage := foldResultEvent st.usage e }
        match e.getField "total_cost_usd" with
        | some c =>
            if c.truthy then
              { st with
                terminal := st.terminal
                  ++ [⟨.plain, "\n"⟩,
                      ⟨.dim, "  Step cost: " ++ formatCost (c.asNum.getD 0) ++ " | "
                        ++ formatNumber
                            ((((e.getField "usage").bind
                                (fun u => u.getField "input_tokens")).bind Json.asNum).getD 0)
                        ++ " in / "
                        ++ formatNumber
                            ((((e.getField "usage").bind
                                (fun u => u.getField "output_tokens")).bind Json.asNum).getD 0)
                        ++ " out" ++ "\n"⟩] }
            else st
        | none => st
      else st

/-- `TokenUsage` of `src/lib/llm/types.js` as populated by
`parseStreamingOutput` (claude.ts lines 36–41). -/
structure TokenUsage where
  inputTokens : ℚ
  outputTokens : ℚ
  cacheReadTokens : ℚ
  cacheCreationTokens : ℚ
deriving DecidableEq

/-- `PromptResult` as resolved by the runtimes' `runPrompt` promises.
`runPrompt` always resolves to one of these — it installs no `reject`
path — so the embedding of each resolution site is a total function into
this type. -/
structure PromptResult where
  success : Bool
  output : String
  exitCode : ℤ
  durationMs : ℚ
  tokenUsage : Option TokenUsage
  costUsd : Option ℚ
deriving DecidableEq

/-- `parseStreamingOutput(jsonLines)` of claude.ts lines 25–50: scan the
buffered raw lines, and for every parseable `result` event with truthy
`usage` overwrite the extracted figures (each token field `|| 0`;
`costUsd = event.total_cost_usd` may overwrite with `undefined`). -/
def parseStreamingOutput (jparse : String → Option Json) (jsonLines : List String) :
    Option TokenUsage × Option ℚ :=
  jsonLines.foldl
    (fun acc line =>
      match jparse line with
      | none => acc
      | some e =>
          if e.getField "type" = some (.str "result") ∧ otruthy (e.getField "usage") = true then
            match e.getField "usage" with
            | some us =>
                (some
                  { inputTokens := numField us "input_tokens"
                    outputTokens := numField us "output_tokens"
                    cacheReadTokens := numField us "cache_read_input_tokens"
                    cacheCreationTokens := numField us "cache_creation_input_tokens" },
                 (e.getField "total_cost_usd").bind Json.asNum)
            | none => acc
          else acc)
    (none, none)

/-- State of `claudeRuntime.runPrompt`'s stream handling (claude.ts lines
80–92): the captured `output`, the raw `jsonLines` buffer, and the
terminal writes. -/
structure ClaudeState where
  output : String
  jsonLines : List String
  terminal : List Frag

/-- Fresh state at the top of the `runPrompt` promise executor. -/
def claudeInit : ClaudeState :=
  { output := "", jsonLines := [], terminal := [] }

/-- One `text` block of a full `assistant` message in claude.ts lines
105–110: only blocks with `type === "text"` and truthy `text` print. -/
def claudeAssistantBlock (st : ClaudeState) (b : Json) : ClaudeState :=
  if b.getField "type" = some (.str "text") ∧ otruthy (b.getField "text") = true then
    { st with
      terminal := st.terminal ++ [⟨.plain, odisp (b.getField "text") ++ "\n"⟩]
      output := st.output ++ odisp (b.getField "text") ++ "\n" }
  else st

/-- The `line` handler of `claudeRuntime.runPrompt` (claude.ts lines
92–119).  Every line is pushed onto `jsonLines`; with `streamOutput` a
parse failure falls into the `catch` and is captured verbatim plus a
newline, text deltas stream unbuffered, full `assistant` messages print
their text blocks, and every other parsed event is ignored by this
handler; without `streamOutput` all lines are captured verbatim. -/
def claudeHandleLine (st : ClaudeState) (line : String) (parsed : Option Json)
    (streamOutput : Bool) : ClaudeState :=
  let st : ClaudeState := { st with jsonLines := st.jsonLines ++ [line] }
  if streamOutput then
    match parsed with
    | none => { st with output := st.output ++ line ++ "\n" }
    | some e =>
        if e.getField "type" = some (.str "content_block_delta")
            ∧ otruthy ((e.getField "delta").bind (fun d => d.getField "text")) = true then
          let t := odisp ((e.getField "delta").bind (fun d => d.getField "text"))
          { st with
            terminal := st.terminal ++ [⟨.plain, t⟩]
            output := st.output ++ t }
        else if e.getField "type" = some (.str "assistant")
            ∧ otruthy ((e.getField "message").bind (fun m => m.getField "content")) = true then
          match (e.getField "message").bind (fun m => m.getField "content") with
          | some (.arr xs) => xs.toList.foldl claudeAssistantBlock st
          | _ => st
        else st
  else { st with output := st.output ++ line ++ "\n" }

/-- The `close` resolution of `claudeRuntime.runPrompt` (claude.ts lines
128–141): `exitCode = code ?? 1`, `success = exitCode === 0`, usage and
cost re-parsed from the buffered lines. -/
def claudeFinalize (jparse : String → Option Json) (st : ClaudeState)
    (code : Option ℤ) (durationMs : ℚ) : PromptResult :=
  let exitCode := code.getD 1
  let parsedUsage := parseStreamingOutput jparse st.jsonLines
  { success := exitCode = 0
    output := st.output
    exitCode := exitCode
    durationMs := durationMs
    tokenUsage := parsedUsage.1
    costUsd := parsedUsage.2 }

/-- The `error` resolution of `claudeRuntime.runPrompt` (claude.ts lines
143–151): a spawn-level failure resolves — the executor installs no
reject — with the error message as output. -/
def claudeOnError (errMessage : String) (durationMs : ℚ) : PromptResult :=
  { success := false
    output := errMessage
    exitCode := 1
    durationMs := durationMs
    tokenUsage := none
    costUsd := none }

/-- The `close` resolution of `cursorRuntime.runPrompt` (part_004 lines
219–229); the cursor runtime reports no usage or cost. -/
def cursorFinalize (output : String) (code : Option ℤ) (durationMs : ℚ) : PromptResult :=
  let exitCode := code.getD 1
  { success := exitCode = 0
    output := output
    exitCode := exitCode
    durationMs := durationMs
    tokenUsage := none
    costUsd := none }

/-- The `error` resolution of `cursorRuntime.runPrompt` (part_004 lines
231–239). -/
def cursorOnError (errMessage : String) (durationMs : ℚ) : PromptResult :=
  { success := false
    output := errMessage
    exitCode := 1
    durationMs := durationMs
    tokenUsage := none
    costUsd := none }

/-- The `close` resolution of `opencodeRuntime.runPrompt` (opencode.ts
lines 131–141). -/
def opencodeFinalize (output : String) (code : Option ℤ) (durationMs : ℚ) : PromptResult :=
  let exitCode := code.getD 1
  { success := exitCode = 0
    output := output
    exitCode := exitCode
    durationMs := durationMs
    tokenUsage := none
    costUsd := none }

/-- State of `cursorRuntime.runPrompt`'s stream handling (part_004 lines
86–95): captured `output`, the per-run `thinkingStarted` flag, and the
terminal writes. -/
structure CursorState where
  output : String
  thinkingStarted : Bool
  terminal : List Frag
deriving DecidableEq

/-- Fresh state at the top of the cursor `runPrompt` promise executor:
`thinkingStarted` starts `false` (part_004 line 87). -/
def cursorInit : CursorState :=
  { output := "", thinkingStarted := false, terminal := [] }

/-- One key of a cursor `tool_call` event's dynamically keyed object, in
the `started` subtype (part_004 lines 137–146): strip the `ToolCall`
suffix and announce via `formatToolUse` on `toolData.args || {}`. -/
def cursorToolStarted (jparse : String → Option Json) (st : CursorState)
    (toolCall : Json) (key : String) : CursorState :=
  let toolData := jsIndexFull toolCall key
  let toolName := if strEndsWith key "ToolCall" then key.dropRight 8 else key
  let args := toolData.bind (fun d => d.getField "args")
  let argsVal : Option Json := if otruthy args then args else some (jobj [])
  let toolDisplay := formatToolUse jparse toolName argsVal
  { st with terminal := st.terminal ++ [⟨.cyan, "  ➤ " ++ toolDisplay ++ "\n"⟩] }

/-- One key of a cursor `tool_call` event in the `completed` subtype
(part_004 lines 148–165): preview a truthy `result` via
`formatToolResult` — note the source passes the tool *name* where
`maxLines` is expected — and show non-zero exit codes. -/
def cursorToolCompleted (st : CursorState) (toolCall : Json) (key : String) : CursorState :=
  let toolData := jsIndexFull toolCall key
  let toolName := if strEndsWith key "ToolCall" then key.dropRight 8 else key
  let st1 : CursorState :=
    if otruthy (toolData.bind (fun d => d.getField "result")) then
      let preview := formatToolResult (toolData.bind (fun d => d.getField "result"))
        (some (.str toolName))
      if preview ≠ "" then
        { st with terminal := st.terminal ++ [⟨.plain, preview ++ "\n"⟩] }
      else st
    else st
  let ec := toolData.bind (fun d => d.getField "exitCode")
  if ec ≠ none ∧ ec ≠ some (.num 0) then
    { st1 with terminal := st1.terminal
        ++ [⟨.yellow, "    Exit code: " ++ odisp ec ++ "\n"⟩] }
  else st1

/-- The `line` handler of `cursorRuntime.runPrompt` (part_004 lines
97–210).  `parsed` is the outcome of `JSON.parse(line)`; with
`streamOutput` the event dispatch runs (verbose mode first echoes the raw
line), otherwise lines are captured verbatim. -/
def cursorHandleLine (jparse : String → Option Json) (verbose streamOutput : Bool)
    (st : CursorState) (line : String) (parsed : Option Json) : CursorState :=
  if streamOutput then
    match parsed with
    | none =>
        { st with
          terminal := st.terminal ++ [⟨.plain, line ++ "\n"⟩]
          output := st.output ++ line ++ "\n" }
    | some e =>
        let st : CursorState :=
          if verbose then
            { st with terminal := st.terminal ++ [⟨.gray, "[VERBOSE] " ++ line ++ "\n"⟩] }
          else st
        let ty := e.getField "type"
        if ty = some (.str "system") then
          if e.getField "subtype" = some (.str "init")
              ∧ otruthy (e.getField "session_id") = true then
            { st with terminal := st.terminal
                ++ [⟨.dim, "  Session: " ++ (odisp (e.getField "session_id")).take 8
                      ++ "..." ++ "\n"⟩] }
          else st
        else if ty = some (.str "thinking") then
          if e.getField "subtype" = some (.str "delta")
              ∧ otruthy (e.getField "text") = true then
            let t := odisp (e.getField "text")
            let st1 : CursorState :=
              if st.thinkingStarted then st
              else { st with
                terminal := st.terminal ++ [⟨.magenta, "[Thinking] "⟩]
                thinkingStarted := true }
            { st1 with
              terminal := st1.terminal ++ [⟨.magenta, t⟩]
              output := st1.output ++ t }
          else if e.getField "subtype" = some (.str "completed") then
            if st.thinkingStarted then
              { st with
                terminal := st.terminal ++ [⟨.plain, "\n"⟩]
                thinkingStarted := false }
            else st
          else st
        else if ty = some (.str "tool_call") then
          let tc := e.getField "tool_call"
          if otruthy tc ∧ e.getField "subtype" = some (.str "started") then
            match tc with
            | some tcv =>
                match pkeys (some tcv) with
                | .ok ks => ks.foldl (fun s k => cursorToolStarted jparse s tcv k) st
                | .error _ => st
            | none => st
          else if otruthy tc ∧ e.getField "subtype" = some (.str "completed") then
            match tc with
            | some tcv =>
                match pkeys (some tcv) with
                | .ok ks => ks.foldl (fun s k => cursorToolCompleted s tcv k) st
                | .error _ => st
            | none => st
          else st
        else if ty = some (.str "assistant") then
          let content := (e.getField "message").bind (fun m => m.getField "content")
          if otruthy content then
            match content with
            | some (.arr xs) =>
                xs.toList.foldl
                  (fun s b =>
                    if b.getField "type" = some (.str "text")
                        ∧ otruthy (b.getField "text") = true then
                      { s with
                        terminal := s.terminal
                          ++ [⟨.plain, odisp (b.getField "text") ++ "\n"⟩]
                        output := s.output ++ odisp (b.getField "text") ++ "\n" }
                    else s)
                  st
            | _ => st
          else st
        else if ty = some (.str "result") then
          if otruthy (e.getField "duration_ms") then
            { st with terminal := st.terminal
                ++ [⟨.dim, "  Completed in "
                      ++ toFixed 1 ((((e.getField "duration_ms").bind Json.asNum).getD 0) / 1000)
                      ++ "s" ++ "\n"⟩] }
          else st
        else if ty = some (.str "error") then
          if otruthy (e.getField "message") then
            { st with terminal := st.terminal
                ++ [⟨.red, "  Error: " ++ odisp (e.getField "message") ++ "\n"⟩] }
          else st
        else
          if verbose then
            { st with terminal := st.terminal
                ++ [⟨.yellow, "[VERBOSE] Unknown event type: " ++ odisp ty ++ "\n"⟩] }
          else st
  else { st with output := st.output ++ line ++ "\n" }

/-- A `content_block_start` event opening a `tool_use` block at `index`. -/
def startToolUseEv (i : ℚ) (nm : String) : Json :=
  jobj [("type", .str "content_block_start"), ("index", .num i),
        ("content_block", jobj [("type", .str "tool_use"), ("name", .str nm)])]

/-- A `content_block_delta` event carrying an `input_json_delta` fragment
for `index`. -/
def inputJsonDeltaEv (i : ℚ) (frag : String) : Json :=
  jobj [("type", .str "content_block_delta"), ("index", .num i),
        ("delta", jobj [("type", .str "input_json_delta"), ("partial_json", .str frag)])]

/-- A `content_block_stop` event for `index`. -/
def blockStopEv (i : ℚ) : Json :=
  jobj [("type", .str "content_block_stop"), ("index", .num i)]

/-- A cursor `thinking` delta event with text `t`. -/
def thinkingDeltaEv (t : String) : Json :=
  jobj [("type", .str "thinking"), ("subtype", .str "delta"), ("text", .str t)]

/-- A cursor `thinking` completed event. -/
def thinkingDoneEv : Json :=
  jobj [("type", .str "thinking"), ("subtype", .str "completed")]

/-- One full thinking run on the wire: deltas followed by `completed`. -/
def thinkingRunEvs (ts : List String) : List Json :=
  ts.map thinkingDeltaEv ++ [thinkingDoneEv]

/-- The terminal fragment of the one-time thinking label,
`process.stdout.write(chalk.magenta("[Thinking] "))`. -/
def labelFrag : Frag := ⟨.magenta, "[Thinking] "⟩

/-- Number of thinking labels visible in a terminal transcript. -/
def countLabel (fs : List Frag) : ℕ := fs.countP (fun f => f = labelFrag)

/-- The fragments verbose mode prepends for one parsed line. -/
def vfrags (verbose : Bool) (line : String) : List Frag :=
  if verbose then [⟨.gray, "[VERBOSE] " ++ line ++ "\n"⟩] else []

/-- Folding a list of already-parsed stdout lines through the cursor
runtime's line handler with `streamOutput` enabled. -/
def cursorRun (jparse : String → Option Json) (verbose : Bool) (st : CursorState)
    (evs : List Json) : CursorState :=
  evs.foldl (fun s e => cursorHandleLine jparse verbose true s "" (some e)) st

/-- Folding a list of already-parsed stdout lines through the mjs
streaming line handler. -/
def mjsRun (jparse : String → Option Json) (st : MjsState) (evs : List Json) : MjsState :=
  evs.foldl (fun s e => mjsHandleLine jparse s "" (some e)) st

/-- Substring occurrence on character lists. -/
def listContainsSub (needle : List Char) : List Char → Bool
  | [] => needle.isEmpty
  | c :: rest => needle.isPrefixOf (c :: rest) || listContainsSub needle rest

/-- Whether `needle` occurs as a contiguous substring of `hay`. -/
def containsStr (hay needle : String) : Bool :=
  listContainsSub needle.toList hay.toList

/-- The `result` event of claim C4: usage `(input 100, output 50)` and a
cost of `0.02` dollars. -/
def resultEv1 : Json :=
  jobj [("type", .str "result"),
        ("usage", jobj [("input_tokens", .num 100), ("output_tokens", .num 50)]),
        ("total_cost_usd", .num (1 / 50))]

/-- A `result` event carrying no `usage` field at all. -/
def resultEvNoUsage : Json := jobj [("type", .str "result")]

/-- The Read-tool result payload of claim C5:
`\x7bsuccess: \x7bcontent: "line1\n…\nline6"\x7d\x7d`. -/
def readPayload : Json :=
  jobj [("success",
         jobj [("content", .str "line1\nline2\nline3\nline4\nline5\nline6")])]

/-- A syntactically valid JSON line whose `type` matches no known event
kind, together with its parse. -/
def c6Line : String := "\x7b\"type\":\"zzz\"\x7d"

/-- The parse of `c6Line`. -/
def c6Ev : Json := jobj [("type", .str "zzz")]

/-! Theorems. -/

/-- C1: for every input line whose `JSON.parse` fails, the streaming line
handler (a total function, so it never throws) treats the raw line as
opaque text: it is rendered as-is to the terminal and appended verbatim
plus a trailing newline to the captured output, and nothing else in the
state changes — so processing of subsequent lines continues from an
otherwise unchanged state. -/
theorem c1_nonjson_line_passthrough (jparse : String → Option Json)
    (st : MjsState) (line : String) :
    mjsHandleLine jparse st line none =
      { st with
        terminal := st.terminal ++ [⟨.plain, line ++ "\n"⟩]
        output := st.output ++ line ++ "\n" } := rfl

/-- C2: a spawn-level failure makes `runPrompt` resolve (its `error`
handler calls `resolve`, never `reject`) with `success = false`,
`exitCode = 1`, and the spawn error's message as output — in both the
claude and the cursor runtimes. -/
theorem c2_spawn_error_resolves (msg : String) (d : ℚ) :
    claudeOnError msg d =
      { success := false, output := msg, exitCode := 1, durationMs := d,
        tokenUsage := none, costUsd := none }
    ∧ cursorOnError msg d =
      { success := false, output := msg, exitCode := 1, durationMs := d,
        tokenUsage := none, costUsd := none } :=
  ⟨rfl, rfl⟩

/-- C10: when the `close` event reports a `null` exit code, every runtime
resolves with `exitCode = 1` and `success = false`; and whenever a code
is reported, `success` holds exactly when that code is `0`. -/
theorem c10_exit_code_semantics (jparse : String → Option Json)
    (st : ClaudeState) (o : String) (d : ℚ) :
    ((claudeFinalize jparse st none d).exitCode = 1
      ∧ (claudeFinalize jparse st none d).success = false
      ∧ (cursorFinalize o none d).exitCode = 1
      ∧ (cursorFinalize o none d).success = false
      ∧ (opencodeFinalize o none d).exitCode = 1
      ∧ (opencodeFinalize o none d).success = false)
    ∧ ∀ c : ℤ,
        ((claudeFinalize jparse st (some c) d).success = true ↔ c = 0)
        ∧ ((cursorFinalize o (some c) d).success = true ↔ c = 0)
        ∧ ((opencodeFinalize o (some c) d).success = true ↔ c = 0) := by
  refine ⟨⟨rfl, rfl, rfl, rfl, rfl, rfl⟩, fun c => ?_⟩
  simp [claudeFinalize, cursorFinalize, opencodeFinalize]

/-- C4: folding the `result` event with usage `(100 input, 50 output)`
and cost `0.02` into the zeroed telemetry accumulator yields totals
`(input 100, output 50, cost 0.02, steps 1)`; folding a second identical
event doubles all four figures and bumps steps to `2`. -/
theorem c4_result_fold_totals :
    runStepFold telemetryInit resultEv1 =
      { totalInputTokens := 100, totalOutputTokens := 50,
        totalCacheReadTokens := 0, totalCacheCreationTokens := 0,
        totalCostUsd := 1 / 50, totalDurationMs := 0, stepCount := 1 }
    ∧ runStepFold (runStepFold telemetryInit resultEv1) resultEv1 =
      { totalInputTokens := 200, totalOutputTokens := 100,
        totalCacheReadTokens := 0, totalCacheCreationTokens := 0,
        totalCostUsd := 1 / 25, totalDurationMs := 0, stepCount := 2 } := by
  constructor <;>
    · simp +decide [runStepFold, foldResultEvent, bumpStep, telemetryInit, resultEv1,
        numField, Json.getField, jobj, JsonKVs.ofList, JsonKVs.toList, List.find?,
        Json.truthy, Json.asNum, Telemetry.mk.injEq]
      try norm_num

/-- C9: folding a `result` event that carries no `usage` field increments
the step counter by exactly one and leaves all four cumulative token
totals unchanged. -/
theorem c9_no_usage_step_only (u : Telemetry) (e : Json)
    (h : e.getField "usage" = none) :
    (runStepFold u e).stepCount = u.stepCount + 1
    ∧ (runStepFold u e).totalInputTokens = u.totalInputTokens
    ∧ (runStepFold u e).totalOutputTokens = u.totalOutputTokens
    ∧ (runStepFold u e).totalCacheReadTokens = u.totalCacheReadTokens
    ∧ (runStepFold u e).totalCacheCreationTokens = u.totalCacheCreationTokens := by
  unfold runStepFold foldResultEvent bumpStep
  rw [h]
  cases hc : e.getField "total_cost_usd" with
  | none => simp
  | some c => by_cases hct : c.truthy <;> simp [hct]

/-- Witness for C9 at the concrete `result` event with no usage. -/
theorem c9_no_usage_step_only_witness :
    (resultEvNoUsage.getField "usage" = none)
    ∧ ((runStepFold telemetryInit resultEvNoUsage).stepCount
        = telemetryInit.stepCount + 1
      ∧ (runStepFold telemetryInit resultEvNoUsage).totalInputTokens
        = telemetryInit.totalInputTokens
      ∧ (runStepFold telemetryInit resultEvNoUsage).totalOutputTokens
        = telemetryInit.totalOutputTokens
      ∧ (runStepFold telemetryInit resultEvNoUsage).totalCacheReadTokens
        = telemetryInit.totalCacheReadTokens
      ∧ (runStepFold telemetryInit resultEvNoUsage).totalCacheCreationTokens
        = telemetryInit.totalCacheCreationTokens) :=
  ⟨rfl, c9_no_usage_step_only telemetryInit resultEvNoUsage rfl⟩

/-- C8: a `content_block_delta` event whose index has no open block is a
no-op for the tracker: the (total, hence non-raising) handler creates no
entry and leaves the whole block map — every existing tracked block —
unchanged. -/
theorem c8_append_unopened_noop (jparse : String → Option Json) (st : MjsState)
    (line : String) (e : Json)
    (hty : e.getField "type" = some (.str "content_block_delta"))
    (hnone : st.blocks (e.getField "index") = none) :
    (mjsHandleLine jparse st line (some e)).blocks = st.blocks := by
  unfold mjsHandleLine
  simp only [hty, Option.some.injEq, Json.str.injEq, String.reduceEq, reduceCtorEq,
    if_false, if_true, and_true, and_false, false_and, if_neg, ite_false, ite_true]
  split
  · cases hb : st.blocks (e.getField "index") with
    | none => simp [hb]
    | some b => rw [hnone] at hb; cases hb
  · split
    · cases hb : st.blocks (e.getField "index") with
      | none => simp [hb]
      | some b => rw [hnone] at hb; cases hb
    · simp

/-- Witness for C8: an `input_json_delta` for index 7 against the fresh
(empty) tracker leaves the block map unchanged. -/
theorem c8_append_unopened_noop_witness :
    (mjsHandleLine (fun _ => none) mjsInit "" (some (inputJsonDeltaEv 7 "x"))).blocks
      = mjsInit.blocks :=
  c8_append_unopened_noop (fun _ => none) mjsInit "" (inputJsonDeltaEv 7 "x") rfl rfl

/-- Opening a tool_use block: the handler stores a fresh entry at the
event's index (name defaulting to `"tool"` when falsy) and buffers the
event; nothing else changes. -/
theorem mjs_start_toolUse (jparse : String → Option Json) (st : MjsState)
    (l : String) (i : ℚ) (nm : String) :
    mjsHandleLine jparse st l (some (startToolUseEv i nm)) =
      { st with
        jsonLines := st.jsonLines ++ [startToolUseEv i nm]
        blocks := bset st.blocks (some (.num i))
          ⟨.toolUse, if nm = "" then "tool" else nm, "", ""⟩ } := by
  unfold mjsHandleLine
  by_cases h : nm = "" <;>
    simp [startToolUseEv, jobj, JsonKVs.ofList, Json.getField, JsonKVs.toList,
      List.find?, otruthy, Json.truthy, odisp, jsDisp, h]

/-- Appending a nonempty `input_json_delta` fragment to an open block:
the entry's accumulated input gets the fragment concatenated on the
right; the event is buffered; nothing else changes. -/
theorem mjs_delta_input (jparse : String → Option Json) (st : MjsState)
    (l : String) (i : ℚ) (s : String) (hs : s ≠ "") (b : Block)
    (hb : st.blocks (some (.num i)) = some b) :
    mjsHandleLine jparse st l (some (inputJsonDeltaEv i s)) =
      { st with
        jsonLines := st.jsonLines ++ [inputJsonDeltaEv i s]
        blocks := bset st.blocks (some (.num i)) { b with input := b.input ++ s } } := by
  have hty : (inputJsonDeltaEv i s).getField "type"
      = some (.str "content_block_delta") := rfl
  have hidx : (inputJsonDeltaEv i s).getField "index" = some (.num i) := rfl
  have hdty : ((inputJsonDeltaEv i s).getField "delta").bind
      (fun d => d.getField "type") = some (.str "input_json_delta") := rfl
  have hdtext : ((inputJsonDeltaEv i s).getField "delta").bind
      (fun d => d.getField "text") = none := rfl
  have hdpj : ((inputJsonDeltaEv i s).getField "delta").bind
      (fun d => d.getField "partial_json") = some (.str s) := rfl
  simp only [mjsHandleLine]
  rw [hty, hidx, hdty, hdtext, hdpj]
  simp only [Option.some.injEq, Json.str.injEq, String.reduceEq, reduceCtorEq,
    ite_true, ite_false, if_true, if_false, and_true, and_false, true_and,
    false_and, otruthy, Json.truthy, odisp, jsDisp, hb]
  simp [hs]

/-- Closing a block always deletes the entry at the event's index,
whatever rendering the stop performs. -/
theorem mjs_stop_blocks (jparse : String → Option Json) (st : MjsState)
    (l : String) (i : ℚ) :
    (mjsHandleLine jparse st l (some (blockStopEv i))).blocks =
      berase st.blocks (some (.num i)) := by
  have hty : (blockStopEv i).getField "type" = some (.str "content_block_stop") := rfl
  have hidx : (blockStopEv i).getField "index" = some (.num i) := rfl
  simp only [mjsHandleLine]
  rw [hty, hidx]
  simp only [Option.some.injEq, Json.str.injEq, String.reduceEq, reduceCtorEq,
    if_false, if_true, ite_true, ite_false]
  split <;> (try split) <;> (try split) <;> (try split) <;> rfl

/-- C3: opening a tool_use block at any index `i`, appending the
fragments `"a"`, `"b"`, `"c"` in that order through `input_json_delta`
events for `i`, then closing `i`, accumulates exactly `"abc"` — appends
for the same index apply in arrival order, none dropped or duplicated —
and the close removes the entry. -/
theorem c3_input_fragments_in_order (jparse : String → Option Json) (i : ℚ)
    (nm : String) (st : MjsState) :
    (mjsRun jparse st
        [startToolUseEv i nm, inputJsonDeltaEv i "a", inputJsonDeltaEv i "b",
         inputJsonDeltaEv i "c"]).blocks (some (.num i))
      = some ⟨.toolUse, if nm = "" then "tool" else nm, "", "abc"⟩
    ∧ (mjsRun jparse st
        [startToolUseEv i nm, inputJsonDeltaEv i "a", inputJsonDeltaEv i "b",
         inputJsonDeltaEv i "c", blockStopEv i]).blocks (some (.num i)) = none := by
  have h0 := mjs_start_toolUse jparse st "" i nm
  have l1 : (mjsHandleLine jparse st "" (some (startToolUseEv i nm))).blocks
      (some (.num i)) = some ⟨.toolUse, if nm = "" then "tool" else nm, "", ""⟩ := by
    rw [h0]; simp [bset]
  have h1 := mjs_delta_input jparse _ "" i "a" (by decide) _ l1
  have l2 : (mjsHandleLine jparse (mjsHandleLine jparse st "" (some (startToolUseEv i nm)))
      "" (some (inputJsonDeltaEv i "a"))).blocks (some (.num i))
      = some ⟨.toolUse, if nm = "" then "tool" else nm, "", "a"⟩ := by
    rw [h1]; simp [bset]
  have h2 := mjs_delta_input jparse _ "" i "b" (by decide) _ l2
  have l3 : (mjsHandleLine jparse (mjsHandleLine jparse
      (mjsHandleLine jparse st "" (some (startToolUseEv i nm)))
      "" (some (inputJsonDeltaEv i "a"))) "" (some (inputJsonDeltaEv i "b"))).blocks
      (some (.num i)) = some ⟨.toolUse, if nm = "" then "tool" else nm, "", "ab"⟩ := by
    rw [h2]; simp [bset]
  have h3 := mjs_delta_input jparse _ "" i "c" (by decide) _ l3
  have l4 : (mjsHandleLine jparse (mjsHandleLine jparse (mjsHandleLine jparse
      (mjsHandleLine jparse st "" (some (startToolUseEv i nm)))
      "" (some (inputJsonDeltaEv i "a"))) "" (some (inputJsonDeltaEv i "b")))
      "" (some (inputJsonDeltaEv i "c"))).blocks (some (.num i))
      = some ⟨.toolUse, if nm = "" then "tool" else nm, "", "abc"⟩ := by
    rw [h3]; simp [bset]
  refine ⟨l4, ?_⟩
  show (mjsHandleLine jparse (mjsHandleLine jparse (mjsHandleLine jparse
      (mjsHandleLine jparse (mjsHandleLine jparse st "" (some (startToolUseEv i nm)))
      "" (some (inputJsonDeltaEv i "a"))) "" (some (inputJsonDeltaEv i "b")))
      "" (some (inputJsonDeltaEv i "c"))) "" (some (blockStopEv i))).blocks
      (some (.num i)) = none
  rw [mjs_stop_blocks]
  simp [berase]

/-- C5: the shipped `formatToolResult`, applied to the Read-tool payload
`\x7bsuccess: \x7bcontent: "line1\n…\nline6"\x7d\x7d` with `maxLines = 5`, leaks the
envelope: its output contains the literal substring `"success"` and no
truncation marker (the pretty-printed wrapper is exactly 5 lines, so no
`"... more lines"` is appended) — contradicting the claim and the
repository's own test (part_010 lines 17–41), which expects the wrapped
content to be extracted.  This evaluates the code at the failing input. -/
theorem c5_envelope_leaks :
    containsStr (formatToolResult (some readPayload) (some (.num 5))) "success" = true
    ∧ containsStr (formatToolResult (some readPayload) (some (.num 5))) "more line" = false
    ∧ containsStr (formatToolResult (some readPayload) (some (.num 5))) "line1" = true := by
  refine ⟨?_, ?_, ?_⟩ <;> decide

/-- C6 counterexample: the line `\x7b"type":"zzz"\x7d` parses as JSON with an
unknown `type`; the claude stream handler leaves the captured output
empty and renders nothing — it does not append the raw line the way the
non-JSON path does — so the claim that unknown-type lines take the same
render-as-is path as non-JSON lines is false at this input. -/
theorem c6_counterexample :
    (claudeHandleLine claudeInit c6Line (some c6Ev) true).output = ""
    ∧ (claudeHandleLine claudeInit c6Line (some c6Ev) true).terminal = []
    ∧ (claudeHandleLine claudeInit c6Line none true).output = c6Line ++ "\n"
    ∧ c6Line ++ "\n" ≠ "" := by
  refine ⟨?_, ?_, ?_, ?_⟩ <;> decide

/-- C6 amended: a line that parses as valid JSON but whose `type`
discriminant matches no known event kind is silently ignored by the
streaming renderer — it is retained in the raw `jsonLines` buffer but
produces no rendered output and is not appended to the captured output —
and processing continues without failure (the handler is total). -/
theorem c6_unknown_type_ignored (st : ClaudeState) (line : String) (e : Json)
    (h1 : e.getField "type" ≠ some (.str "content_block_delta"))
    (h2 : e.getField "type" ≠ some (.str "assistant")) :
    claudeHandleLine st line (some e) true =
      { st with jsonLines := st.jsonLines ++ [line] } := by
  unfold claudeHandleLine
  simp [h1, h2]

/-- Witness for the amended C6 at the concrete unknown-type line. -/
theorem c6_unknown_type_ignored_witness :
    claudeHandleLine claudeInit c6Line (some c6Ev) true =
      { claudeInit with jsonLines := claudeInit.jsonLines ++ [c6Line] } :=
  c6_unknown_type_ignored claudeInit c6Line c6Ev (by decide) (by decide)

/-- A nonempty thinking delta arriving with the label not yet shown:
the label is written once, then the text, and the flag is set. -/
theorem cursor_delta_fresh (jparse : String → Option Json) (v : Bool)
    (st : CursorState) (l t : String) (hs : st.thinkingStarted = false)
    (ht : t ≠ "") :
    cursorHandleLine jparse v true st l (some (thinkingDeltaEv t)) =
      { st with
        terminal := st.terminal ++ vfrags v l ++ [labelFrag, ⟨.magenta, t⟩]
        output := st.output ++ t
        thinkingStarted := true } := by
  have hty : (thinkingDeltaEv t).getField "type" = some (.str "thinking") := rfl
  have hsub : (thinkingDeltaEv t).getField "subtype" = some (.str "delta") := rfl
  have htext : (thinkingDeltaEv t).getField "text" = some (.str t) := rfl
  simp only [cursorHandleLine]
  rw [hty, hsub, htext]
  cases v <;>
    simp [otruthy, Json.truthy, odisp, jsDisp, ht, hs, vfrags, labelFrag]

/-- A nonempty thinking delta arriving with the label already shown:
only the text is appended and the flag stays set. -/
theorem cursor_delta_started (jparse : String → Option Json) (v : Bool)
    (st : CursorState) (l t : String) (hs : st.thinkingStarted = true)
    (ht : t ≠ "") :
    cursorHandleLine jparse v true st l (some (thinkingDeltaEv t)) =
      { st with
        terminal := st.terminal ++ vfrags v l ++ [⟨.magenta, t⟩]
        output := st.output ++ t } := by
  have hty : (thinkingDeltaEv t).getField "type" = some (.str "thinking") := rfl
  have hsub : (thinkingDeltaEv t).getField "subtype" = some (.str "delta") := rfl
  have htext : (thinkingDeltaEv t).getField "text" = some (.str t) := rfl
  simp only [cursorHandleLine]
  rw [hty, hsub, htext]
  cases v <;>
    simp [otruthy, Json.truthy, odisp, jsDisp, ht, hs, vfrags]

/-- A thinking `completed` event with the label shown: the visual block
is terminated by a newline and the flag resets for the next run. -/
theorem cursor_done_started (jparse : String → Option Json) (v : Bool)
    (st : CursorState) (l : String) (hs : st.thinkingStarted = true) :
    cursorHandleLine jparse v true st l (some thinkingDoneEv) =
      { st with
        terminal := st.terminal ++ vfrags v l ++ [⟨.plain, "\n"⟩]
        thinkingStarted := false } := by
  have hty : thinkingDoneEv.getField "type" = some (.str "thinking") := rfl
  have hsub : thinkingDoneEv.getField "subtype" = some (.str "completed") := rfl
  have htext : thinkingDoneEv.getField "text" = none := rfl
  simp only [cursorHandleLine]
  rw [hty, hsub, htext]
  cases v <;> simp [otruthy, Json.truthy, hs, vfrags]

/-- Verbose echo fragments never look like the label. -/
theorem countLabel_vfrags (v : Bool) (l : String) : countLabel (vfrags v l) = 0 := by
  cases v <;> simp [vfrags, countLabel, labelFrag]

/-- A list of label-free appended fragments contributes no label. -/
theorem countLabel_append (a b : List Frag) :
    countLabel (a ++ b) = countLabel a + countLabel b :=
  List.countP_append _ _ _

/-- While the label flag is set, a run of nonempty thinking deltas never
repeats the label and leaves the flag set. -/
theorem cursor_deltas_no_label (jparse : String → Option Json) (v : Bool)
    (ts : List String) :
    ∀ st : CursorState, st.thinkingStarted = true →
      (∀ t ∈ ts, t ≠ "" ∧ t ≠ "[Thinking] ") →
      (cursorRun jparse v st (ts.map thinkingDeltaEv)).thinkingStarted = true
      ∧ ∃ fs, (cursorRun jparse v st (ts.map thinkingDeltaEv)).terminal
            = st.terminal ++ fs
          ∧ countLabel fs = 0 := by
  induction ts with
  | nil =>
      intro st hs _
      exact ⟨hs, ⟨[], by simp [cursorRun], by simp [countLabel]⟩⟩
  | cons t ts ih =>
      intro st hs hts
      have ht := hts t (List.mem_cons_self t ts)
      have hts' : ∀ x ∈ ts, x ≠ "" ∧ x ≠ "[Thinking] " :=
        fun x hx => hts x (List.mem_cons_of_mem _ hx)
      have hstep := cursor_delta_started jparse v st "" t hs ht.1
      have hrun : cursorRun jparse v st ((t :: ts).map thinkingDeltaEv)
          = cursorRun jparse v
              (cursorHandleLine jparse v true st "" (some (thinkingDeltaEv t)))
              (ts.map thinkingDeltaEv) := rfl
      rw [hrun, hstep]
      obtain ⟨hflag, fs', hterm, hcount⟩ :=
        ih { st with
              terminal := st.terminal ++ vfrags v "" ++ [⟨.magenta, t⟩]
              output := st.output ++ t } hs hts'
      refine ⟨hflag, ⟨vfrags v "" ++ ([⟨.magenta, t⟩] ++ fs'), ?_, ?_⟩⟩
      · rw [hterm]
        simp
      · have hne : (⟨.magenta, t⟩ : Frag) ≠ labelFrag := by
          simp [labelFrag, Frag.mk.injEq, ht.2]
        rw [countLabel_append, countLabel_append, countLabel_vfrags, hcount]
        simp [countLabel, List.countP_cons, hne]

/-- One complete thinking run processed from a label-free state: exactly
one label is emitted, the run is newline-terminated, and the flag ends
reset. -/
theorem cursor_thinking_run (jparse : String → Option Json) (v : Bool)
    (t : String) (ts : List String) (st : CursorState)
    (hs : st.thinkingStarted = false)
    (h1 : t ≠ "" ∧ t ≠ "[Thinking] ")
    (h2 : ∀ x ∈ ts, x ≠ "" ∧ x ≠ "[Thinking] ") :
    ∃ fs, (cursorRun jparse v st (thinkingRunEvs (t :: ts))).terminal
        = st.terminal ++ fs
      ∧ countLabel fs = 1
      ∧ (cursorRun jparse v st (thinkingRunEvs (t :: ts))).thinkingStarted = false
      ∧ (cursorRun jparse v st (thinkingRunEvs (t :: ts))).terminal.getLast?
          = some ⟨.plain, "\n"⟩ := by
  have hrun1 : cursorRun jparse v st (thinkingRunEvs (t :: ts))
      = cursorHandleLine jparse v true
          (cursorRun jparse v
            (cursorHandleLine jparse v true st "" (some (thinkingDeltaEv t)))
            (ts.map thinkingDeltaEv))
          "" (some thinkingDoneEv) := by
    simp [cursorRun, thinkingRunEvs, List.foldl_append]
  have hstep := cursor_delta_fresh jparse v st "" t hs h1.1
  rw [hrun1, hstep]
  obtain ⟨hflag, fs', hterm, hcount⟩ :=
    cursor_deltas_no_label jparse v ts
      { st with
        terminal := st.terminal ++ vfrags v "" ++ [labelFrag, ⟨.magenta, t⟩]
        output := st.output ++ t
        thinkingStarted := true } rfl h2
  rw [cursor_done_started jparse v _ "" hflag]
  have hne : (⟨.magenta, t⟩ : Frag) ≠ labelFrag := by
    simp [labelFrag, Frag.mk.injEq, h1.2]
  refine ⟨vfrags v "" ++ ([labelFrag, ⟨.magenta, t⟩]
      ++ (fs' ++ (vfrags v "" ++ [⟨.plain, "\n"⟩]))), ?_, ?_, rfl, ?_⟩
  · show (cursorRun jparse v _ (ts.map thinkingDeltaEv)).terminal
        ++ vfrags v "" ++ [(⟨.plain, "\n"⟩ : Frag)] = _
    rw [hterm]
    simp
  · rw [countLabel_append, countLabel_append, countLabel_append, countLabel_append,
      countLabel_vfrags, hcount]
    simp [countLabel, List.countP_cons, labelFrag, Frag.mk.injEq, h1.2]
  · show ((cursorRun jparse v _ (ts.map thinkingDeltaEv)).terminal
        ++ vfrags v "" ++ [(⟨.plain, "\n"⟩ : Frag)]).getLast? = _
    rw [List.getLast?_concat]

/-- C7: within one thinking run the `[Thinking]` label is emitted exactly
once, on the first delta (the singleton-prefix count is already 1), and
never repeated by later deltas of the run; the `completed` subtype
terminates the visual block with a newline and resets the label flag, so
a later thinking run in the same session again emits its own label
exactly once (two runs show exactly two labels).  Texts are assumed
nonempty (empty deltas are skipped by the truthiness guard) and distinct
from the label string itself, without which a label occurrence in the
transcript is not attributable. -/
theorem c7_thinking_label_once_per_run (jparse : String → Option Json) (v : Bool)
    (t1 : String) (rest ts2 : List String)
    (h1 : t1 ≠ "" ∧ t1 ≠ "[Thinking] ")
    (h2 : ∀ t ∈ rest, t ≠ "" ∧ t ≠ "[Thinking] ")
    (h3 : ts2 ≠ [])
    (h4 : ∀ t ∈ ts2, t ≠ "" ∧ t ≠ "[Thinking] ") :
    countLabel (cursorRun jparse v cursorInit [thinkingDeltaEv t1]).terminal = 1
    ∧ countLabel (cursorRun jparse v cursorInit
        (thinkingRunEvs (t1 :: rest))).terminal = 1
    ∧ (cursorRun jparse v cursorInit (thinkingRunEvs (t1 :: rest))).thinkingStarted
        = false
    ∧ (cursorRun jparse v cursorInit (thinkingRunEvs (t1 :: rest))).terminal.getLast?
        = some ⟨.plain, "\n"⟩
    ∧ countLabel (cursorRun jparse v
        (cursorRun jparse v cursorInit (thinkingRunEvs (t1 :: rest)))
        (thinkingRunEvs ts2)).terminal = 2
    ∧ (cursorRun jparse v
        (cursorRun jparse v cursorInit (thinkingRunEvs (t1 :: rest)))
        (thinkingRunEvs ts2)).thinkingStarted = false := by
  have hfirst : cursorRun jparse v cursorInit [thinkingDeltaEv t1]
      = cursorHandleLine jparse v true cursorInit "" (some (thinkingDeltaEv t1)) := rfl
  obtain ⟨fs1, hterm1, hcount1, hflag1, hlast1⟩ :=
    cursor_thinking_run jparse v t1 rest cursorInit rfl h1 h2
  obtain ⟨t2, rest2, rfl⟩ : ∃ a l, ts2 = a :: l := by
    cases ts2 with
    | nil => exact absurd rfl h3
    | cons a l => exact ⟨a, l, rfl⟩
  obtain ⟨fs2, hterm2, hcount2, hflag2, hlast2⟩ :=
    cursor_thinking_run jparse v t2 rest2 _ hflag1
      (h4 t2 (List.mem_cons_self t2 rest2))
      (fun x hx => h4 x (List.mem_cons_of_mem _ hx))
  refine ⟨?_, ?_, hflag1, hlast1, ?_, hflag2⟩
  · rw [hfirst, cursor_delta_fresh jparse v cursorInit "" t1 rfl h1.1]
    cases v <;>
      simp [vfrags, cursorInit, countLabel, List.countP_cons, labelFrag,
        Frag.mk.injEq, h1.2]
  · rw [hterm1, countLabel_append, hcount1]
    simp [cursorInit, countLabel]
  · rw [hterm2, countLabel_append, hcount2, hterm1, countLabel_append, hcount1]
    simp [cursorInit, countLabel]

/-- Witness for C7 at concrete runs `["a", "b"]` then `["c"]` with
verbose off. -/
theorem c7_thinking_label_once_per_run_witness :
    countLabel (cursorRun (fun _ => none) false cursorInit
        [thinkingDeltaEv "a"]).terminal = 1
    ∧ countLabel (cursorRun (fun _ => none) false cursorInit
        (thinkingRunEvs ["a", "b"])).terminal = 1
    ∧ (cursorRun (fun _ => none) false cursorInit
        (thinkingRunEvs ["a", "b"])).thinkingStarted = false
    ∧ (cursorRun (fun _ => none) false cursorInit
        (thinkingRunEvs ["a", "b"])).terminal.getLast? = some ⟨.plain, "\n"⟩
    ∧ countLabel (cursorRun (fun _ => none) false
        (cursorRun (fun _ => none) false cursorInit (thinkingRunEvs ["a", "b"]))
        (thinkingRunEvs ["c"])).terminal = 2
    ∧ (cursorRun (fun _ => none) false
        (cursorRun (fun _ => none) false cursorInit (thinkingRunEvs ["a", "b"]))
        (thinkingRunEvs ["c"])).thinkingStarted = false :=
  c7_thinking_label_once_per_run (fun _ => none) false "a" ["b"] ["c"]
    ⟨by decide, by decide⟩ (by decide) (by decide) (by decide)

end AgentOS
